import Mathlib

/-
Verification of the mrpc repository (a Go RPC runtime) against its
natural-language specification.

The Go source is shallowly embedded: mutable structures become explicit
state records, goroutine side effects (channel sends, codec writes,
connection closes) become explicit event lists returned by the embedded
functions, and `uint64` arithmetic is `Nat` arithmetic modulo `2 ^ 64`.
-/

set_option autoImplicit false

namespace Mrpc

/-- Modulus of Go's `uint64` (the type of `Client.seq` / `Header.Seq`). -/
def u64Mod : Nat := 2 ^ 64

/-- Opaque Go payload values (`any` arguments / replies of rpc methods). -/
inductive GoValue
  | unit
  | int (n : Int)
  | str (s : String)
  | pair (a b : GoValue)
  deriving DecidableEq

/-- `codec.Header` (codec/codec.go): request sequence number, the
`"Service.Method"` name, and the error text (empty on success). -/
structure Header where
  seq : Nat
  name : String
  error : String
  deriving DecidableEq

/-- Go map lookup `m[k]` over an association-list model: `none` is Go's nil. -/
def lookupL {α β : Type} [DecidableEq α] : List (α × β) → α → Option β
  | [], _ => none
  | kv :: rest, k => if kv.1 = k then some kv.2 else lookupL rest k

/-- Go `delete(m, k)`: removes the entry with key `k` (no-op when absent). -/
def eraseL {α β : Type} [DecidableEq α] : List (α × β) → α → List (α × β)
  | [], _ => []
  | kv :: rest, k => if kv.1 = k then eraseL rest k else kv :: eraseL rest k

/-- Go map store `m[k] = v` (insert or overwrite). -/
def insertL {α β : Type} [DecidableEq α] (m : List (α × β)) (k : α) (v : β) :
    List (α × β) :=
  (k, v) :: eraseL m k

/-- A client-side `Call` (client file): procedure name, argument value, the
sequence number assigned at enqueue time, and the settled error / reply.
The `Done` channel is modelled by the embedded operations returning the
calls whose completion they signal. -/
structure CallV where
  name : String
  args : GoValue
  seq : Nat
  error : Option String
  reply : Option GoValue
  deriving DecidableEq

/-- The mutex-protected mutable state of a `Client` (client file): the next
sequence number, the pending-call table, and the two latch flags. -/
structure ClientState where
  seq : Nat
  pending : List (Nat × CallV)
  closing : Bool
  shutdown : Bool
  deriving DecidableEq

/-- `ErrShutDown = errors.New("connection shut down")`. -/
def ErrShutDown : String := "connection shut down"

/-- `Client.addCall`: under the state lock, refuse when closing or shut
down; otherwise stamp the call with the current sequence number, insert it
into the pending table and increment the counter (uint64 wraparound). -/
def addCall (c : ClientState) (call : CallV) :
    Except String (Nat × CallV) × ClientState :=
  if c.closing || c.shutdown then
    (Except.error ErrShutDown, c)
  else
    let call' := { call with seq := c.seq }
    (Except.ok (c.seq, call'),
     { c with pending := insertL c.pending c.seq call',
              seq := (c.seq + 1) % u64Mod })

/-- `Client.removeCall`: return `pending[seq]` (nil when absent) and delete
the entry. -/
def removeCall (c : ClientState) (s : Nat) : Option CallV × ClientState :=
  (lookupL c.pending s, { c with pending := eraseL c.pending s })

/-- `Client.terminateCalls`: under both the state lock and the send lock,
mark the client shut down and settle every pending call with the terminal
error. Returns the new state and, in table order, the calls whose `done()`
was signalled. The pending map itself is only iterated, never cleared. -/
def terminateCalls (c : ClientState) (err : String) :
    ClientState × List CallV :=
  let settled := c.pending.map (fun kv => (kv.1, { kv.2 with error := some err }))
  ({ c with shutdown := true, pending := settled }, settled.map Prod.snd)

/-- Outcome of a `ReadBody` performed by the client's receive loop: a
decoded value or a read/decode error. -/
inductive BodyRead
  | ok (v : GoValue)
  | err (e : String)
  deriving DecidableEq

/-- Error returned by `ReadBody` irrespective of its decode target. -/
def bodyErr : BodyRead → Option String
  | .ok _ => none
  | .err e => some e

/-- One iteration of `Client.receive` after a header has been read:
remove the matching call, then settle it according to the header error and
the body read. Returns the new state, the call whose `done()` fired (if
any), and the error that will stop the loop (if any). -/
def receiveStep (c : ClientState) (h : Header) (body : BodyRead) :
    ClientState × Option CallV × Option String :=
  let r := removeCall c h.seq
  match r.1 with
  | none =>
    -- call already gone: read and discard the body, signal nothing
    (r.2, none, bodyErr body)
  | some call =>
    if h.error ≠ "" then
      -- server-reported call error: header text becomes the call error
      (r.2, some { call with error := some h.error }, bodyErr body)
    else
      match body with
      | .ok v => (r.2, some { call with reply := some v }, none)
      | .err e =>
        (r.2, some { call with error := some ("reading body error: " ++ e) },
         some e)

/-- `Client.send`: under the send lock, enqueue via `addCall` (failing the
call immediately when the client is unavailable), else populate the shared
header and write it with the arguments; on a write error remove and settle
the call if still present. Returns the new state, the final call record,
how many times `done()` was signalled for it, and the writes attempted on
the codec. -/
def send (c : ClientState) (call : CallV) (writeRes : Option String) :
    ClientState × CallV × Nat × List (Header × GoValue) :=
  match addCall c call with
  | (Except.error e, c1) => (c1, { call with error := some e }, 1, [])
  | (Except.ok sc, c1) =>
    let hdr : Header := { seq := sc.1, name := call.name, error := "" }
    match writeRes with
    | none => (c1, sc.2, 0, [(hdr, call.args)])
    | some e =>
      let r := removeCall c1 sc.1
      match r.1 with
      | some c2 => (r.2, { c2 with error := some e }, 1, [(hdr, call.args)])
      | none => (r.2, sc.2, 0, [(hdr, call.args)])

/-- `Magic` (server file): the 4-byte protocol constant. -/
def Magic : Nat := 0x5a2b71c3

/-- `codec.GobType`, the only tag registered in `codec.init`. -/
def GobType : Nat := 0

/-- Membership of a tag in `codec.NewCodecFuncMap` as populated at init
time: only the gob codec is registered. -/
def registeredCodec (t : Nat) : Bool := t == GobType

/-- `binary.BigEndian.PutUint32`: the four big-endian bytes of `v`. -/
def putUint32BE (v : Nat) : List Nat :=
  [v / 2 ^ 24 % 256, v / 2 ^ 16 % 256, v / 2 ^ 8 % 256, v % 256]

/-- `binary.BigEndian.Uint32`: read four bytes big-endian. -/
def beUint32 (bs : List Nat) : Nat :=
  match bs with
  | [a, b, c, d] => ((a * 256 + b) * 256 + c) * 256 + d
  | _ => 0

/-- Observable side effects of `NewClient` on the raw connection. -/
inductive ClientEv
  | wrote (bs : List Nat)
  | closedConn
  deriving DecidableEq

/-- The client state `NewClient` constructs: seq starts at 1, empty pending
table, both latch flags clear. -/
def freshClient : ClientState :=
  { seq := 1, pending := [], closing := false, shutdown := false }

/-- `NewClient`: look the codec tag up in the registry (fail before any
write when unknown), write the 8-byte preamble `Magic ++ tag` big-endian,
and on a write failure close the raw connection and return the error. -/
def NewClient (codecType : Nat) (writeRes : Option String) :
    Except String ClientState × List ClientEv :=
  if registeredCodec codecType then
    let buf := putUint32BE Magic ++ putUint32BE codecType
    match writeRes with
    | some e => (Except.error e, [ClientEv.wrote buf, ClientEv.closedConn])
    | none => (Except.ok freshClient, [ClientEv.wrote buf])
  else
    (Except.error ("invalid codec type " ++ toString codecType), [])

/-- A registered method binding (server side): the invocation behaviour of
`service.call` (error returned and value left in the reply placeholder),
plus the zero argument value `newArgv` allocates (which `readRequest`
leaves untouched when the body decode fails). -/
structure MethodM where
  fn : GoValue → Option String × GoValue
  argZero : GoValue

/-- A registered `service` (service.go): its method table. -/
structure Service where
  method : List (String × MethodM)

/-- `Server.serviceMap`. -/
abbrev Registry := List (String × Service)

/-- Index of the last occurrence of `c` (Go `strings.LastIndex` for a
one-byte separator over ASCII names). -/
def lastIdxOf (c : Char) : List Char → Option Nat
  | [] => none
  | x :: xs =>
    match lastIdxOf c xs with
    | some i => some (i + 1)
    | none => if x = c then some 0 else none

/-- `Server.findService`: split `"Service.Method"` on the last dot and look
both components up, with the source's error texts. -/
def findService (reg : Registry) (name : String) : Except String MethodM :=
  match lastIdxOf '.' name.toList with
  | none => Except.error "rpc server: service name must be like \"Service.Method\""
  | some dot =>
    let sName : String := ⟨name.toList.take dot⟩
    let mName : String := ⟨name.toList.drop (dot + 1)⟩
    match lookupL reg sName with
    | none => Except.error ("rpc server: cannot find service " ++ sName)
    | some svc =>
      match lookupL svc.method mName with
      | none =>
        Except.error ("rpc server: cannot find method " ++ mName ++
          " on service " ++ sName)
      | some mt => Except.ok mt

/-- One incoming message on a server connection: the decoded header and the
outcome of decoding its body into the freshly allocated argument. -/
structure Msg where
  h : Header
  body : Except String GoValue

/-- A server-side `request`: header, resolved binding, decoded argument. -/
structure Request where
  h : Header
  mt : MethodM
  argv : GoValue

/-- `Server.readRequest` on one structurally-read message: on a resolution
failure it returns a nil request together with the error; a body-decode
failure is only logged, leaving the zero argument value in place. -/
def readRequestMsg (reg : Registry) (m : Msg) : Option Request × Option String :=
  match findService reg m.h.name with
  | Except.error e => (none, some e)
  | Except.ok mt =>
    let argv := match m.body with
      | Except.ok v => v
      | Except.error _ => mt.argZero
    (some { h := m.h, mt := mt, argv := argv }, none)

/-- Body of a response written by the server: `invalidRequest` (the empty
placeholder `struct\x7b\x7d`) or a reply value. -/
inductive RespBody
  | invalid
  | value (v : GoValue)
  deriving DecidableEq

/-- `Server.handleRequest`: invoke the bound method; on a call-level error
set the header error and write the placeholder response, then fall through
and also write the reply-bearing response (there is no early return); on
success write the single reply response. -/
def handleRequest (req : Request) : List (Header × RespBody) :=
  let r := req.mt.fn req.argv
  match r.1 with
  | some e =>
    [({ req.h with error := e }, RespBody.invalid),
     ({ req.h with error := e }, RespBody.value r.2)]
  | none => [(req.h, RespBody.value r.2)]

/-- `Server.serveCodec`: loop reading requests until `readRequest` fails
with a nil request (which includes header EOF and any resolution failure),
writing back an error response only when a non-nil request carries an
error, and dispatching complete requests. Returns the responses written on
the connection, in write order. -/
def serveCodec (reg : Registry) : List Msg → List (Header × RespBody)
  | [] => []
  | m :: rest =>
    match readRequestMsg reg m with
    | (none, some _) => []
    | (some req, some e) =>
      ({ req.h with error := e }, RespBody.invalid) :: serveCodec reg rest
    | (some req, none) => handleRequest req ++ serveCodec reg rest
    | (none, none) => []

/-- Result of `Server.ServeConn`: whether the preamble was accepted (and
then which byte suffix the codec serves), the response bytes written while
checking the preamble, and whether the connection was closed. -/
structure ServeConnResult where
  served : Option (List Nat)
  written : List Nat
  closed : Bool
  deriving DecidableEq

/-- `Server.ServeConn`: read exactly 8 preamble bytes (failing on a short
read), check the magic constant, look the codec tag up, and only then hand
the rest of the stream to the codec; the deferred `conn.Close` always
runs, and no bytes are ever written while checking. -/
def ServeConn (input : List Nat) : ServeConnResult :=
  if input.length < 8 then
    { served := none, written := [], closed := true }
  else
    let buf := input.take 8
    if beUint32 (buf.take 4) ≠ Magic then
      { served := none, written := [], closed := true }
    else if ¬ registeredCodec (beUint32 (buf.drop 4)) then
      { served := none, written := [], closed := true }
    else
      { served := some (input.drop 8), written := [], closed := true }

/-- Observable effects of `GobCodec.Write` besides its return value. -/
inductive GobEv
  | flushed (ok : Bool)
  | closed
  deriving DecidableEq

/-- `GobCodec.Write` (codec/gob.go): encode the header then the body into
the buffer; the deferred block flushes the buffer (its error is dropped)
and closes the connection only when the named return error is non-nil.
Inputs are the outcomes of the two encodes and of the flush; the result is
the returned error and the ordered effect list. -/
def gobWrite (encH : Option String) (encB : Option String) (flushOk : Bool) :
    Option String × List GobEv :=
  match encH with
  | some e => (some e, [GobEv.flushed flushOk, GobEv.closed])
  | none =>
    match encB with
    | some e => (some e, [GobEv.flushed flushOk, GobEv.closed])
    | none => (none, [GobEv.flushed flushOk])

/-- A call record as `Client.Go` builds it, before `addCall` stamps it. -/
def dummyCall : CallV :=
  { name := "", args := GoValue.unit, seq := 0, error := none, reply := none }

/-- `n` successive successful enqueues (`addCall`) on a client, as performed
by `n` `Go` invocations whose responses have not yet arrived. -/
def iterAdd : ClientState → Nat → ClientState
  | c, 0 => c
  | c, n + 1 => iterAdd (addCall c dummyCall).2 n

/-- The `Arith.Add` binding of the repository's service test: adds the two
argument fields into the reply. -/
def arithAddM : MethodM :=
  { fn := fun v =>
      match v with
      | .pair (.int a) (.int b) => (none, GoValue.int (a + b))
      | _ => (none, GoValue.int 0),
    argZero := GoValue.pair (GoValue.int 0) (GoValue.int 0) }

/-- A bound method that returns a call-level error, leaving the zero value
in its reply placeholder. -/
def arithFailM : MethodM :=
  { fn := fun _ => (some "arith error", GoValue.int 0),
    argZero := GoValue.unit }

/-- A server registry holding one `Arith` service. -/
def testRegistry : Registry :=
  [("Arith", { method := [("Add", arithAddM), ("Fail", arithFailM)] })]

/-- A request naming a method absent from the registry. -/
def missingMsg : Msg :=
  { h := { seq := 7, name := "Arith.Missing", error := "" },
    body := Except.ok (GoValue.pair (GoValue.int 1) (GoValue.int 2)) }

/-- A well-formed `Arith.Add` request. -/
def addMsg : Msg :=
  { h := { seq := 8, name := "Arith.Add", error := "" },
    body := Except.ok (GoValue.pair (GoValue.int 1) (GoValue.int 2)) }

/-- A well-formed request bound to the erroring method. -/
def failMsg : Msg :=
  { h := { seq := 9, name := "Arith.Fail", error := "" },
    body := Except.ok GoValue.unit }

/-- Concrete pending call used to exercise the client-state theorems. -/
def c3call : CallV :=
  { name := "Arith.Add", args := GoValue.pair (GoValue.int 1) (GoValue.int 2),
    seq := 1, error := none, reply := none }

/-- A live client with one in-flight call. -/
def c3state : ClientState :=
  { seq := 2, pending := [(1, c3call)], closing := false, shutdown := false }

/-- A client already marked closing. -/
def c4state : ClientState :=
  { seq := 3, pending := [], closing := true, shutdown := false }

/-- A fresh call handed to `send` on the closing client. -/
def c4call : CallV :=
  { name := "Arith.Add", args := GoValue.unit, seq := 0, error := none, reply := none }

/-- In-flight call with sequence number 4, for the receive-loop theorems. -/
def c5call : CallV :=
  { name := "Arith.Add", args := GoValue.unit, seq := 4, error := none, reply := none }

/-- A client whose pending table holds exactly `c5call` at key 4. -/
def c5state : ClientState :=
  { seq := 5, pending := [(4, c5call)], closing := false, shutdown := false }

/- ## Helper lemmas about the association-list map model -/

theorem lookupL_eraseL {α β : Type} [DecidableEq α] (m : List (α × β)) (k : α) :
    lookupL (eraseL m k) k = none := by
  induction m with
  | nil => rfl
  | cons kv rest ih =>
    by_cases h : kv.1 = k <;> simp [eraseL, lookupL, h, ih]

theorem eraseL_of_lookupL_none {α β : Type} [DecidableEq α]
    (m : List (α × β)) (k : α) (h : lookupL m k = none) : eraseL m k = m := by
  induction m with
  | nil => rfl
  | cons kv rest ih =>
    by_cases hk : kv.1 = k
    · simp [lookupL, hk] at h
    · simp [lookupL, hk] at h
      simp [eraseL, hk, ih h]

theorem eraseL_of_forall_ne {α β : Type} [DecidableEq α]
    (m : List (α × β)) (k : α) (h : ∀ kv ∈ m, kv.1 ≠ k) : eraseL m k = m := by
  induction m with
  | nil => rfl
  | cons kv rest ih =>
    have hk : kv.1 ≠ k := h kv (List.mem_cons_self kv rest)
    simp [eraseL, hk]
    exact ih fun kv' hm => h kv' (List.mem_cons_of_mem kv hm)

theorem range_succ_map_add (s n : Nat) :
    (List.range (n + 1)).map (fun i => s + i)
      = s :: (List.range n).map (fun i => (s + 1) + i) := by
  rw [List.range_succ_eq_map]
  simp only [List.map_cons, List.map_map, Nat.add_zero]
  refine congrArg (s :: ·) (List.map_congr_left fun a _ => ?_)
  simp [Function.comp]
  omega

/- ## Behaviour of repeated enqueues (for the sequence-uniqueness claim) -/

theorem iterAdd_keys :
    ∀ (n s : Nat) (pend : List (Nat × CallV)),
      s + n ≤ u64Mod →
      (∀ kv ∈ pend, kv.1 < s) →
      (iterAdd ⟨s, pend, false, false⟩ n).pending.map Prod.fst
        = ((List.range n).map (fun i => s + i)).reverse ++ pend.map Prod.fst := by
  intro n
  induction n with
  | zero => intro s pend _ _; simp [iterAdd]
  | succ n ih =>
    intro s pend hbound hlt
    have herase : eraseL pend s = pend :=
      eraseL_of_forall_ne pend s fun kv hm => Nat.ne_of_lt (hlt kv hm)
    have hstep : (addCall ⟨s, pend, false, false⟩ dummyCall).2
        = ⟨(s + 1) % u64Mod, (s, { dummyCall with seq := s }) :: pend,
           false, false⟩ := by
      simp [addCall, insertL, herase]
    by_cases hs : s + 1 < u64Mod
    · have hmod : (s + 1) % u64Mod = s + 1 := Nat.mod_eq_of_lt hs
      have hkeys : ∀ kv ∈ (s, { dummyCall with seq := s }) :: pend,
          kv.1 < s + 1 := by
        intro kv hm
        rcases List.mem_cons.mp hm with h | h
        · simp [h]
        · exact Nat.lt_succ_of_lt (hlt kv h)
      have := ih (s + 1) ((s, { dummyCall with seq := s }) :: pend)
        (by omega) hkeys
      calc (iterAdd ⟨s, pend, false, false⟩ (n + 1)).pending.map Prod.fst
          = (iterAdd ⟨(s + 1) % u64Mod,
              (s, { dummyCall with seq := s }) :: pend, false, false⟩
              n).pending.map Prod.fst := by rw [iterAdd, hstep]
        _ = ((List.range n).map (fun i => (s + 1) + i)).reverse
              ++ (s :: pend.map Prod.fst) := by rw [hmod]; simpa using this
        _ = ((List.range (n + 1)).map (fun i => s + i)).reverse
              ++ pend.map Prod.fst := by
              rw [range_succ_map_add s n]
              simp
    · have hn : n = 0 := by omega
      subst hn
      rw [iterAdd, hstep]
      simp [iterAdd, range_succ_map_add]

theorem iterAdd_seq :
    ∀ (n s : Nat) (pend : List (Nat × CallV)),
      s + n ≤ u64Mod → s < u64Mod →
      (iterAdd ⟨s, pend, false, false⟩ n).seq = (s + n) % u64Mod := by
  intro n
  induction n with
  | zero =>
    intro s pend _ hs
    simp [iterAdd, Nat.mod_eq_of_lt hs]
  | succ n ih =>
    intro s pend hbound hs
    have hstep : (addCall ⟨s, pend, false, false⟩ dummyCall).2
        = ⟨(s + 1) % u64Mod,
           insertL pend s { dummyCall with seq := s }, false, false⟩ := by
      simp [addCall]
    by_cases hs1 : s + 1 < u64Mod
    · have hmod : (s + 1) % u64Mod = s + 1 := Nat.mod_eq_of_lt hs1
      have := ih (s + 1) (insertL pend s { dummyCall with seq := s })
        (by omega) hs1
      rw [iterAdd, hstep, hmod, this]
      congr 1
      omega
    · have hn : n = 0 := by omega
      subst hn
      rw [iterAdd, hstep]
      have h1 : s + 1 = u64Mod := by omega
      simp [iterAdd, h1]

theorem iterAdd_fresh_keys (n : Nat) (h : 1 + n ≤ u64Mod) :
    (iterAdd freshClient n).pending.map Prod.fst
      = ((List.range n).map (fun i => 1 + i)).reverse := by
  have := iterAdd_keys n 1 [] h (by simp)
  simpa [freshClient] using this

/- ## Claim theorems -/

/-- Claim C1 (code bug evidence). `readRequest` returns a nil request when
`findService` fails, so `serveCodec` takes its nil-request break branch:
on a connection whose first request names the unknown `Arith.Missing`, no
error-bearing response is written, and the valid `Arith.Add` request that
follows on the same connection is never served (the loop exits and the
connection is closed) — contradicting the claim that the error is written
back and the connection survives. The same stream with only the valid
request is served normally, showing the loop itself works. -/
theorem C1_resolution_failure_drops_connection :
    readRequestMsg testRegistry missingMsg =
      (none, some "rpc server: cannot find method Missing on service Arith") ∧
    serveCodec testRegistry [missingMsg, addMsg] = [] ∧
    serveCodec testRegistry [addMsg] =
      [({ seq := 8, name := "Arith.Add", error := "" },
        RespBody.value (GoValue.int 3))] :=
  ⟨rfl, rfl, rfl⟩

/-- Claim C2 (code bug evidence). `handleRequest` has no early return after
writing the error response, so a request whose bound method returns a
call-level error gets TWO responses on the connection — the error response
with the placeholder body, then a second response carrying the same error
header and the reply value — while a successful request gets exactly one.
This contradicts the claim that exactly one response is written per
dispatched request. -/
theorem C2_error_path_writes_two_responses :
    handleRequest { h := failMsg.h, mt := arithFailM, argv := GoValue.unit } =
      [({ failMsg.h with error := "arith error" }, RespBody.invalid),
       ({ failMsg.h with error := "arith error" },
        RespBody.value (GoValue.int 0))] ∧
    (handleRequest
      { h := failMsg.h, mt := arithFailM, argv := GoValue.unit }).length = 2 ∧
    handleRequest { h := addMsg.h, mt := arithAddM,
                    argv := GoValue.pair (GoValue.int 1) (GoValue.int 2) } =
      [(addMsg.h, RespBody.value (GoValue.int 3))] :=
  ⟨rfl, rfl, rfl⟩

/-- Claim C3 counterexample. `terminateCalls` never deletes entries from
the pending map, so on a client with one in-flight call the table is not
left empty — refuting the claim's "drains the pending table so that it is
left empty". -/
theorem C3_counterexample :
    (terminateCalls c3state ErrShutDown).1.pending ≠ [] := by
  decide

/-- Claim C3 as amended: on receive-loop exit `terminateCalls` marks the
client shut down and settles every Call still pending with the terminal
error, signalling each call's completion exactly once — but the pending
table keeps its entries (same keys) rather than being drained. -/
theorem C3_terminate_settles_all (c : ClientState) (err : String) :
    (terminateCalls c err).1.shutdown = true ∧
    (terminateCalls c err).2.length = c.pending.length ∧
    ((terminateCalls c err).2.all fun call => call.error == some err) = true ∧
    (terminateCalls c err).1.pending.map Prod.fst = c.pending.map Prod.fst := by
  refine ⟨rfl, by simp [terminateCalls], ?_, by simp [terminateCalls]⟩
  simp [terminateCalls, List.all_eq_true]
  rintro x k v hm rfl
  rfl

/-- Claim C4: a Call handed to `send` while the client is closing or shut
down is settled immediately with the shutdown error and its completion
signalled once; the client state is unchanged (no sequence number
consumed, nothing inserted into the pending table) and nothing is written
to the codec. -/
theorem C4_send_fails_fast (c : ClientState) (call : CallV) (w : Option String)
    (h : c.closing = true ∨ c.shutdown = true) :
    send c call w = (c, { call with error := some ErrShutDown }, 1, []) := by
  have hcl : (c.closing || c.shutdown) = true := by
    rcases h with h | h <;> simp [h]
  simp [send, addCall, hcl]

/-- Claim C4 witness: a closing client fails a fresh call at once, with no
state change and no codec write. -/
theorem C4_send_fails_fast_witness :
    send c4state c4call none =
      (c4state, { c4call with error := some ErrShutDown }, 1, []) :=
  C4_send_fails_fast c4state c4call none (Or.inl rfl)

/-- Claim C5: one receive-loop iteration, after reading header `h`:
with no matching pending Call the body is consumed and nothing is
signalled; with a matching Call and a non-empty header error, that text
becomes the Call's error and completion is signalled with the body
discarded; with an empty header error the body is decoded into the reply
target, a decode failure becomes the Call's error, and completion is
signalled in either case. -/
theorem C5_receive_dispatch (c : ClientState) (h : Header) (body : BodyRead) :
    (lookupL c.pending h.seq = none →
      receiveStep c h body =
        ({ c with pending := eraseL c.pending h.seq }, none, bodyErr body)) ∧
    (∀ call, lookupL c.pending h.seq = some call → h.error ≠ "" →
      receiveStep c h body =
        ({ c with pending := eraseL c.pending h.seq },
         some { call with error := some h.error }, bodyErr body)) ∧
    (∀ call v, lookupL c.pending h.seq = some call → h.error = "" →
      body = BodyRead.ok v →
      receiveStep c h body =
        ({ c with pending := eraseL c.pending h.seq },
         some { call with reply := some v }, none)) ∧
    (∀ call e, lookupL c.pending h.seq = some call → h.error = "" →
      body = BodyRead.err e →
      receiveStep c h body =
        ({ c with pending := eraseL c.pending h.seq },
         some { call with error := some ("reading body error: " ++ e) },
         some e)) := by
  refine ⟨fun h1 => ?_, fun call h1 h2 => ?_,
          fun call v h1 h2 h3 => ?_, fun call e h1 h2 h3 => ?_⟩
  · simp [receiveStep, removeCall, h1]
  · simp [receiveStep, removeCall, h1, h2]
  · subst h3; simp [receiveStep, removeCall, h1, h2]
  · subst h3; simp [receiveStep, removeCall, h1, h2]

/-- Claim C5 witness: the four receive-loop cases at concrete inputs — an
unmatched sequence number, a header-borne error, a clean reply decode, and
a failing reply decode. -/
theorem C5_receive_dispatch_witness :
    receiveStep c5state { seq := 9, name := "", error := "" }
        (BodyRead.ok GoValue.unit)
      = ({ c5state with pending := eraseL c5state.pending 9 }, none, none) ∧
    receiveStep c5state { seq := 4, name := "", error := "boom" }
        (BodyRead.ok GoValue.unit)
      = ({ c5state with pending := eraseL c5state.pending 4 },
         some { c5call with error := some "boom" }, none) ∧
    receiveStep c5state { seq := 4, name := "", error := "" }
        (BodyRead.ok (GoValue.int 3))
      = ({ c5state with pending := eraseL c5state.pending 4 },
         some { c5call with reply := some (GoValue.int 3) }, none) ∧
    receiveStep c5state { seq := 4, name := "", error := "" }
        (BodyRead.err "eof")
      = ({ c5state with pending := eraseL c5state.pending 4 },
         some { c5call with error := some ("reading body error: " ++ "eof") },
         some "eof") := by
  refine ⟨(C5_receive_dispatch c5state _ _).1 (by decide),
          (C5_receive_dispatch c5state _ _).2.1 c5call (by decide) (by decide),
          (C5_receive_dispatch c5state _ _).2.2.1 c5call (GoValue.int 3)
            (by decide) rfl rfl,
          (C5_receive_dispatch c5state _ _).2.2.2 c5call "eof"
            (by decide) rfl rfl⟩

/-- Claim C6: client construction with an unregistered codec tag fails
with the invalid-codec error before anything is written; with a registered
tag it writes exactly the 8-byte preamble (big-endian magic then tag); and
a preamble write failure closes the raw connection and returns that
error. -/
theorem C6_handshake (t : Nat) (e : String) :
    (registeredCodec t = false →
      ∀ w, NewClient t w =
        (Except.error ("invalid codec type " ++ toString t), [])) ∧
    (registeredCodec t = true →
      (putUint32BE Magic ++ putUint32BE t).length = 8 ∧
      NewClient t none =
        (Except.ok freshClient,
         [ClientEv.wrote (putUint32BE Magic ++ putUint32BE t)]) ∧
      NewClient t (some e) =
        (Except.error e,
         [ClientEv.wrote (putUint32BE Magic ++ putUint32BE t),
          ClientEv.closedConn])) := by
  constructor
  · intro h w
    simp [NewClient, h]
  · intro h
    refine ⟨by simp [putUint32BE], by simp [NewClient, h], by simp [NewClient, h]⟩

/-- Claim C6 witness: tag 5 is rejected with no write; the gob tag writes
the 8-byte preamble; a failing preamble write closes the connection and
surfaces the error. -/
theorem C6_handshake_witness :
    NewClient 5 none = (Except.error ("invalid codec type " ++ toString 5), []) ∧
    NewClient GobType none =
      (Except.ok freshClient,
       [ClientEv.wrote (putUint32BE Magic ++ putUint32BE GobType)]) ∧
    NewClient GobType (some "werr") =
      (Except.error "werr",
       [ClientEv.wrote (putUint32BE Magic ++ putUint32BE GobType),
        ClientEv.closedConn]) :=
  ⟨(C6_handshake 5 "werr").1 (by decide) none,
   ((C6_handshake GobType "werr").2 (by decide)).2.1,
   ((C6_handshake GobType "werr").2 (by decide)).2.2⟩

/-- Claim C7: `ServeConn` reads exactly 8 preamble bytes; a short read, a
magic mismatch, or an unregistered codec tag each close the connection
with no response bytes written and no serving; only when all three checks
pass is the codec constructed over the remaining stream. -/
theorem C7_preamble_gate (input : List Nat) :
    (input.length < 8 →
      ServeConn input = { served := none, written := [], closed := true }) ∧
    (8 ≤ input.length → beUint32 (input.take 4) ≠ Magic →
      ServeConn input = { served := none, written := [], closed := true }) ∧
    (8 ≤ input.length → beUint32 (input.take 4) = Magic →
      registeredCodec (beUint32 ((input.take 8).drop 4)) = false →
      ServeConn input = { served := none, written := [], closed := true }) ∧
    (8 ≤ input.length → beUint32 (input.take 4) = Magic →
      registeredCodec (beUint32 ((input.take 8).drop 4)) = true →
      ServeConn input = { served := some (input.drop 8), written := [],
                          closed := true }) := by
  have htt : (input.take 8).take 4 = input.take 4 := by
    rw [List.take_take]
    norm_num
  refine ⟨fun h1 => ?_, fun h1 h2 => ?_, fun h1 h2 h3 => ?_,
          fun h1 h2 h3 => ?_⟩
  · simp [ServeConn, h1]
  · have hl : ¬ input.length < 8 := by omega
    simp [ServeConn, hl, htt, h2]
  · have hl : ¬ input.length < 8 := by omega
    simp [ServeConn, hl, htt, h2, h3]
  · have hl : ¬ input.length < 8 := by omega
    simp [ServeConn, hl, htt, h2, h3]

/-- Claim C7 witness: a 3-byte stream, a wrong magic, an unknown codec tag
5, and an accepted preamble followed by one payload byte. -/
theorem C7_preamble_gate_witness :
    ServeConn [1, 2, 3] = { served := none, written := [], closed := true } ∧
    ServeConn [0, 0, 0, 0, 0, 0, 0, 0] =
      { served := none, written := [], closed := true } ∧
    ServeConn [0x5a, 0x2b, 0x71, 0xc3, 0, 0, 0, 5] =
      { served := none, written := [], closed := true } ∧
    ServeConn [0x5a, 0x2b, 0x71, 0xc3, 0, 0, 0, 0, 42] =
      { served := some [42], written := [], closed := true } :=
  ⟨(C7_preamble_gate _).1 (by decide),
   (C7_preamble_gate _).2.1 (by decide) (by decide),
   (C7_preamble_gate _).2.2.1 (by decide) (by decide) (by decide),
   (C7_preamble_gate _).2.2.2 (by decide) (by decide) (by decide)⟩

/-- Claim C8: starting from a freshly constructed client, any number `n`
of successful enqueues (bounded by the uint64 space) leaves `n` entries in
the pending table whose keys — the assigned sequence numbers — are
pairwise distinct, and the internal counter has been incremented once per
assignment. -/
theorem C8_sequence_numbers_distinct (n : Nat) (h : 1 + n ≤ u64Mod) :
    ((iterAdd freshClient n).pending.map Prod.fst).Nodup ∧
    (iterAdd freshClient n).pending.length = n ∧
    (iterAdd freshClient n).seq = (1 + n) % u64Mod := by
  refine ⟨?_, ?_, ?_⟩
  · rw [iterAdd_fresh_keys n h]
    refine List.nodup_reverse.mpr ?_
    exact List.Nodup.map (fun a b hab => by omega) (List.nodup_range n)
  · have := congrArg List.length (iterAdd_fresh_keys n h)
    simpa using this
  · exact iterAdd_seq n 1 [] h (by norm_num [u64Mod])

/-- Claim C8 witness: three calls issued before any completes occupy three
distinct pending keys and advance the counter to 4. -/
theorem C8_sequence_numbers_distinct_witness :
    ((iterAdd freshClient 3).pending.map Prod.fst).Nodup ∧
    (iterAdd freshClient 3).pending.length = 3 ∧
    (iterAdd freshClient 3).seq = (1 + 3) % u64Mod :=
  C8_sequence_numbers_distinct 3 (by norm_num [u64Mod])

/-- Claim C9: removal from the pending table is idempotent — removing a
present sequence number returns that Call and deletes its entry (a second
removal then finds nothing and changes nothing), and removing an absent
sequence number returns nil and leaves the client state unchanged. -/
theorem C9_removeCall_idempotent (c : ClientState) (s : Nat) :
    (∀ call, lookupL c.pending s = some call →
      removeCall c s = (some call, { c with pending := eraseL c.pending s }) ∧
      removeCall (removeCall c s).2 s = (none, (removeCall c s).2)) ∧
    (lookupL c.pending s = none → removeCall c s = (none, c)) := by
  constructor
  · intro call h
    refine ⟨by simp [removeCall, h], ?_⟩
    simp [removeCall, lookupL_eraseL,
          eraseL_of_lookupL_none _ _ (lookupL_eraseL c.pending s)]
  · intro h
    simp [removeCall, h, eraseL_of_lookupL_none _ _ h]

/-- Claim C9 witness: removing key 1 from a table holding it returns the
call and empties the entry; removing it again, and removing the absent key
6, both return nil and change nothing. -/
theorem C9_removeCall_idempotent_witness :
    removeCall c3state 1 =
      (some c3call, { c3state with pending := eraseL c3state.pending 1 }) ∧
    removeCall (removeCall c3state 1).2 1 = (none, (removeCall c3state 1).2) ∧
    removeCall c3state 6 = (none, c3state) :=
  ⟨((C9_removeCall_idempotent c3state 1).1 c3call (by decide)).1,
   ((C9_removeCall_idempotent c3state 1).1 c3call (by decide)).2,
   (C9_removeCall_idempotent c3state 6).2 (by decide)⟩

/-- Claim C10: in `GobCodec.Write`, when both encodes succeed the deferred
block drops the flush result, so a failed flush still yields a nil return
and no close of the connection; the fail-fast close fires exactly on the
encode failures (header or body), where the error is also returned. -/
theorem C10_flush_failure_dropped :
    (∀ fo, gobWrite none none fo = (none, [GobEv.flushed fo])) ∧
    (∀ e encB fo, gobWrite (some e) encB fo =
      (some e, [GobEv.flushed fo, GobEv.closed])) ∧
    (∀ e fo, gobWrite none (some e) fo =
      (some e, [GobEv.flushed fo, GobEv.closed])) :=
  ⟨fun _ => rfl, fun _ _ _ => rfl, fun _ _ => rfl⟩

end Mrpc
